import Mathlib

/-!
Verification development for the data-joining pipeline of `src/app.py`
(`build_lines` and its helpers `clean_str`, `detect_condition`,
`classify_available`, the time-band bucketing, and the three joins).

Dataframes are modelled shallowly: a table is a list of column names plus a
list of rows, a row is an association list from column name to cell, and a
cell is either missing (`NaN` / `None`, modelled as `Cell.null`) or a value.
Column access on a table raises `KeyError` when the column is absent, which
we model with `Except String`; per-row `row.get` access returns the missing
value instead of raising, mirroring pandas `Series.get`.

Timestamps produced by `pd.to_datetime` are modelled abstractly: the parser
is a parameter `pt : String → Option Timestamp`, `errors="coerce"` turning a
failed parse into a missing cell; `Series.dt.hour` always yields an hour in
`0..23`, which the `Fin 24` field captures.
-/

set_option maxHeartbeats 1000000

/-- A parsed timestamp, as produced by `pd.to_datetime`.  Only the hour field
is inspected by the pipeline (`emg["call_time"].dt.hour`); the day and minute
fields keep distinct instants distinct. -/
structure Timestamp where
  day : Nat
  hour : Fin 24
  minute : Fin 60
deriving DecidableEq

/-- A dataframe cell: missing (`NaN`/`None`/`NaT`), or a string, integer,
timestamp, or boolean value. -/
inductive Cell where
  | null
  | str (s : String)
  | nat (n : Nat)
  | time (t : Timestamp)
  | bool (b : Bool)
deriving DecidableEq

abbrev ColName := String

/-- A dataframe row: an association list from column names to cells. -/
abbrev Row := List (ColName × Cell)

/-- Python's `str()` on a cell value.  `str(nan) = "nan"` is what pandas
`astype(str)` produces for a missing value. -/
def pyStr : Cell → String
  | .null => "nan"
  | .str s => s
  | .nat n => toString n
  | .time _ => "Timestamp"
  | .bool b => if b then "True" else "False"

/-- Whitespace characters removed by Python's `str.strip()`. -/
def isWS (c : Char) : Bool :=
  c == ' ' || c == '\t' || c == '\n' || c == '\r' || c == '\x0b' || c == '\x0c'

/-- Python's `str.strip()`: drop leading and trailing whitespace. -/
def pyStrip (s : String) : String :=
  ⟨((s.toList.dropWhile isWS).reverse.dropWhile isWS).reverse⟩

/-- Python's `str.replace("　", "")`: the pattern is the single
full-width-space character, so the replacement deletes every occurrence. -/
def removeFullWidthSpace (s : String) : String :=
  ⟨s.toList.filter (fun ch => !(ch == '　'))⟩

/-- `clean_str` from `src/app.py`: `str(s).replace("　", "").strip()`. -/
def clean_str (s : Cell) : String := pyStrip (removeFullWidthSpace (pyStr s))

/-- Reading a cell from a row by column name; an absent entry reads as the
missing value (pandas `Series.get` returns `None`, and `pd.isna(None)` holds,
so this conflation is behaviour-preserving). -/
def getVal (r : Row) (c : ColName) : Cell := (List.lookup c r).getD Cell.null

/-- Writing a cell into a row: any previous entry for the column is removed
and the new binding appended. -/
def setVal (r : Row) (c : ColName) (v : Cell) : Row :=
  r.filter (fun p => !(p.1 == c)) ++ [(c, v)]

/-- Projecting a row onto a list of columns, in that column order. -/
def projectRow (r : Row) (cs : List ColName) : Row :=
  cs.map (fun c => (c, getVal r c))

/-- Column renaming map lookup: unlisted names are unchanged, as with
`DataFrame.rename`. -/
def renCol (m : List (ColName × ColName)) (c : ColName) : ColName :=
  (List.lookup c m).getD c

/-- Renaming the columns of one row. -/
def renameRow (m : List (ColName × ColName)) (r : Row) : Row :=
  r.map (fun p => (renCol m p.1, p.2))

/-- A dataframe: column names plus rows. -/
structure Table where
  cols : List ColName
  rows : List Row
deriving DecidableEq

/-- Column presence, the condition under which `df[c]` does not raise. -/
def Table.hasCol (t : Table) (c : ColName) : Bool := t.cols.contains c

/-- Column assignment `df[c] = f(row)`: overwrites the column, or appends it
to the schema when new. -/
def Table.setCol (t : Table) (c : ColName) (f : Row → Cell) : Table :=
  ⟨if t.cols.contains c then t.cols else t.cols ++ [c],
   t.rows.map (fun r => setVal r c (f r))⟩

/-- `df[c] = df[c].apply(f)` without the presence check. -/
def Table.mapCol (t : Table) (c : ColName) (f : Cell → Cell) : Table :=
  t.setCol c (fun r => f (getVal r c))

/-- `df[c] = df[c].apply(f)`: reading `df[c]` raises `KeyError` when the
column is absent. -/
def Table.assign (t : Table) (c : ColName) (f : Cell → Cell) : Except String Table :=
  if t.hasCol c then .ok (t.mapCol c f) else .error c

/-- `df[newc] = df[src].apply(f)` without the presence check. -/
def Table.deriveT (t : Table) (newc src : ColName) (f : Cell → Cell) : Table :=
  t.setCol newc (fun r => f (getVal r src))

/-- `df[newc] = df[src].apply(f)`: reading `df[src]` raises when absent. -/
def Table.derive (t : Table) (newc src : ColName) (f : Cell → Cell) : Except String Table :=
  if t.hasCol src then .ok (t.deriveT newc src f) else .error src

/-- `DataFrame.rename(columns=m)`. -/
def Table.renameT (t : Table) (m : List (ColName × ColName)) : Table :=
  ⟨t.cols.map (renCol m), t.rows.map (renameRow m)⟩

/-- Column projection `df[[c1, ..., ck]]` without the presence check. -/
def Table.selectT (t : Table) (cs : List ColName) : Table :=
  ⟨cs, t.rows.map (fun r => projectRow r cs)⟩

/-- Column projection `df[[c1, ..., ck]]`: raises when a column is absent. -/
def Table.select (t : Table) (cs : List ColName) : Except String Table :=
  if cs.all (fun c => t.cols.contains c) then .ok (t.selectT cs) else .error "KeyError"

/-- `DataFrame.dropna(subset=cs)`: keep rows whose cells at `cs` are all
present. -/
def Table.dropna (t : Table) (cs : List ColName) : Table :=
  ⟨t.cols, t.rows.filter (fun r => cs.all (fun c => !(getVal r c == Cell.null)))⟩

/-- Boolean-mask row filtering `df[mask]`. -/
def Table.filterRows (t : Table) (p : Row → Bool) : Table :=
  ⟨t.cols, t.rows.filter p⟩

/-- Core of `drop_duplicates(key)`: keep each row whose key cell has not been
seen before (first occurrence wins). -/
def dedupKey (key : ColName) : List Cell → List Row → List Row
  | _, [] => []
  | seen, r :: rs =>
    if seen.contains (getVal r key) then dedupKey key seen rs
    else r :: dedupKey key (getVal r key :: seen) rs

/-- `DataFrame.drop_duplicates(key)`. -/
def Table.dropDuplicates (t : Table) (key : ColName) : Table :=
  ⟨t.cols, dedupKey key [] t.rows⟩

/-- Join-key comparison: missing keys match nothing (as in pandas `merge`),
present keys match by equality. -/
def keyMatch : Cell → Cell → Bool
  | .null, _ => false
  | _, .null => false
  | a, b => a == b

/-- `left.merge(right, on=key, how="left")`: each left row is paired with
every matching right row; an unmatched left row is kept once with missing
cells for the right columns.  The callers in `build_lines` rename columns so
that the non-key columns of the two sides are disjoint, so no suffixing of
overlapping names is modelled. -/
def Table.mergeLeft (l r : Table) (key : ColName) : Table :=
  let rcols := r.cols.filter (fun c => !(c == key))
  ⟨l.cols ++ rcols,
   (l.rows.map (fun lr =>
      match r.rows.filter (fun rr => keyMatch (getVal lr key) (getVal rr key)) with
      | [] => [lr ++ rcols.map (fun c => (c, Cell.null))]
      | m :: ms => (m :: ms).map (fun rr => lr ++ projectRow rr rcols))).flatten⟩

/-- `is_on` from `detect_condition` in `src/app.py`: an indicator is on when
present and its string form is none of `""`, `"非該当"`, `"0"`. -/
def is_on : Cell → Bool
  | .null => false
  | x => !(pyStr x == "") && !(pyStr x == "非該当") && !(pyStr x == "0")

/-- `detect_condition` from `src/app.py`: first on indicator wins, in the
fixed order heatstroke, flu, snow, covid-suspect; otherwise the other/none
label.  `row.get` of an absent column reads as missing, hence off. -/
def detect_condition (r : Row) : String :=
  if is_on (getVal r "incident_condition_heatstroke") then "熱中症"
  else if is_on (getVal r "incident_condition_flu") then "インフル"
  else if is_on (getVal r "incident_condition_snow") then "雪"
  else if is_on (getVal r "incident_condition_covid19_suspect") then "コロナ疑い"
  else "その他/なし"

/-- Substring test over character lists, for Python's `w in s`. -/
def containsSub (s w : List Char) : Bool :=
  match s with
  | [] => w.isEmpty
  | c :: s2 => w.isPrefixOf (c :: s2) || containsSub s2 w

/-- Python's substring containment `w in s`. -/
def strContains (s w : String) : Bool := containsSub s.toList w.toList

/-- The rejection phrases of `classify_available` in `src/app.py`. -/
def NG_WORDS : List String := ["処置困難", "応答なし", "患者対応中", "満床"]

/-- `classify_available` from `src/app.py`: missing field gives `None`,
trimmed text `"収容可"` gives `True`, text containing a rejection phrase
gives `False`, and any other text also gives `False`. -/
def classify_available (info : Cell) : Option Bool :=
  match info with
  | .null => none
  | c =>
    if pyStrip (pyStr c) == "収容可" then some true
    else if NG_WORDS.any (fun w => strContains (pyStrip (pyStr c)) w) then some false
    else some false

/-- The timestamp parser `pd.to_datetime` is abstracted by a function of this
type; `none` is a parse failure. -/
abbrev ParseFn := String → Option Timestamp

/-- `pd.to_datetime(col, errors="coerce")` on one cell: a failed parse or a
non-parseable cell becomes missing (`NaT`). -/
def toDatetime (pt : ParseFn) : Cell → Cell
  | .null => .null
  | .str s => match pt s with
              | some t => .time t
              | none => .null
  | .time t => .time t
  | _ => .null

/-- `Series.dt.hour` on one cell: the hour of a timestamp, missing otherwise. -/
def dtHour : Cell → Cell
  | .time t => .nat t.hour
  | _ => .null

/-- `pd.cut(col, bins=[0, 6, 12, 18, 24], labels=["0-6", "6-12", "12-18",
"18-24"], right=False, include_lowest=True)` on one integer cell: the four
half-open buckets, anything outside `[0, 24)` or non-integer becoming
missing. -/
def cutBand : Cell → Cell
  | .nat n =>
    if n < 6 then .str "0-6"
    else if n < 12 then .str "6-12"
    else if n < 18 then .str "12-18"
    else if n < 24 then .str "18-24"
    else .null
  | _ => .null

/-- Packing the tri-state result of `classify_available` into a cell
(`None` stays missing). -/
def availCell : Option Bool → Cell
  | none => .null
  | some b => .bool b

/-- The mask `emg["related_hospital"].str.len() > 0` on one cell. -/
def strLenPos : Cell → Bool
  | .str s => decide (0 < s.length)
  | _ => false

/-- `.astype(str).str.strip()`, applied to the `case_id` columns. -/
def stripCell (c : Cell) : Cell := .str (pyStrip (pyStr c))

/-- `.astype(str).apply(clean_str)`, applied to the hospital-name columns.
`clean_str` already string-coerces, so the composition is `clean_str`. -/
def cleanCell (c : Cell) : Cell := .str (clean_str c)

/-- Rename map of `scene.rename(columns={"fX": "scene_lon", "fY": "scene_lat"})`. -/
def sceneRenameMap : List (ColName × ColName) := [("fX", "scene_lon"), ("fY", "scene_lat")]

/-- Rename map of `addr.rename(columns={"fX": "hosp_lon", "fY": "hosp_lat"})`. -/
def addrRenameMap : List (ColName × ColName) := [("fX", "hosp_lon"), ("fY", "hosp_lat")]

/-- Rename map producing `rel_addr` from `addr2`. -/
def relRenameMap : List (ColName × ColName) :=
  [("hospital_name", "related_hospital"), ("hosp_lat", "rel_lat"), ("hosp_lon", "rel_lon")]

/-- Rename map producing `final_addr` from `addr2` (the identity entry on
`hospital_name` is as written in the source). -/
def finalRenameMap : List (ColName × ColName) :=
  [("hospital_name", "hospital_name"), ("hosp_lat", "final_lat"), ("hosp_lon", "final_lon")]

/-- The final projection list of `build_lines`. -/
def outputCols : List ColName :=
  ["case_id", "related_hospital", "obstruction_info", "inquiry_end_time",
   "scene_lat", "scene_lon", "rel_lat", "rel_lon", "hospital_name",
   "final_lat", "final_lon", "is_available", "time_band", "main_condition"]

/-- The value of `build_lines`, together with the post-call states of the
three argument tables (the source mutates them in place). -/
structure BuildResult where
  lines : Table
  emgAfter : Table
  addrAfter : Table
  sceneAfter : Table
deriving DecidableEq

/-- `build_lines` from `src/app.py`, statement by statement in source order.
A `KeyError` on a required column is the `.error` case. -/
def build_lines (pt : ParseFn) (emg addr scene : Table) : Except String BuildResult := do
  let emg ← emg.assign "case_id" stripCell
  let scene ← scene.assign "case_id" stripCell
  let emg ← emg.assign "related_hospital" cleanCell
  let emg ← emg.assign "hospital_name" cleanCell
  let addr ← addr.assign "hospital_name" cleanCell
  let emg ← emg.assign "inquiry_end_time" (toDatetime pt)
  let emg ← emg.assign "call_time" (toDatetime pt)
  let emg ← emg.derive "call_hour" "call_time" dtHour
  let emg ← emg.derive "time_band" "call_hour" cutBand
  let emg := emg.setCol "main_condition" (fun r => .str (detect_condition r))
  let scene2 ← (scene.renameT sceneRenameMap).select ["case_id", "scene_lat", "scene_lon"]
  let scene2 := (scene2.dropna ["scene_lat", "scene_lon"]).dropDuplicates "case_id"
  let addr2 ← (addr.renameT addrRenameMap).select ["hospital_name", "hosp_lat", "hosp_lon"]
  let emg_q := emg.filterRows (fun r => strLenPos (getVal r "related_hospital"))
  let rel_addr := addr2.renameT relRenameMap
  let emg_rel := emg_q.mergeLeft rel_addr "related_hospital"
  let final_addr := addr2.renameT finalRenameMap
  let emg_both := emg_rel.mergeLeft final_addr "hospital_name"
  let lines := emg_both.mergeLeft scene2 "case_id"
  let lines ← lines.derive "is_available" "obstruction_info" (fun c => availCell (classify_available c))
  let lines ← lines.select outputCols
  return ⟨lines, emg, addr, scene⟩

/-- The call-record table after the in-place cleaning and derivation steps of
`build_lines` (source lines 57–80), written as a total function. -/
def emgPrepped (pt : ParseFn) (emg : Table) : Table :=
  ((((((((emg.mapCol "case_id" stripCell).mapCol
    "related_hospital" cleanCell).mapCol
    "hospital_name" cleanCell).mapCol
    "inquiry_end_time" (toDatetime pt)).mapCol
    "call_time" (toDatetime pt)).deriveT "call_hour" "call_time" dtHour).deriveT
    "time_band" "call_hour" cutBand).setCol
    "main_condition" (fun r => .str (detect_condition r)))

/-- The scene table after its in-place `case_id` cleaning. -/
def scenePrepped (scene : Table) : Table := scene.mapCol "case_id" stripCell

/-- The address table after its in-place `hospital_name` cleaning. -/
def addrPrepped (addr : Table) : Table := addr.mapCol "hospital_name" cleanCell

/-- The deduplicated scene-location table `scene2` (source lines 83–88). -/
def scene2Of (scene : Table) : Table :=
  ((((scenePrepped scene).renameT sceneRenameMap).selectT
      ["case_id", "scene_lat", "scene_lon"]).dropna
      ["scene_lat", "scene_lon"]).dropDuplicates "case_id"

/-- The hospital-location projection `addr2` (source lines 91–92). -/
def addr2Of (addr : Table) : Table :=
  ((addrPrepped addr).renameT addrRenameMap).selectT ["hospital_name", "hosp_lat", "hosp_lon"]

/-- The filtered call-record table `emg_q` (source line 95). -/
def emgQ (pt : ParseFn) (emg : Table) : Table :=
  (emgPrepped pt emg).filterRows (fun r => strLenPos (getVal r "related_hospital"))

/-- The joined and projected output table of `build_lines`, as a total
function. -/
def linesOf (pt : ParseFn) (emg addr scene : Table) : Table :=
  (((((emgQ pt emg).mergeLeft ((addr2Of addr).renameT relRenameMap)
      "related_hospital").mergeLeft ((addr2Of addr).renameT finalRenameMap)
      "hospital_name").mergeLeft (scene2Of scene) "case_id").deriveT
      "is_available" "obstruction_info"
      (fun c => availCell (classify_available c))).selectT outputCols

/-- The value `build_lines` returns when no required column is missing. -/
def build_lines_core (pt : ParseFn) (emg addr scene : Table) : BuildResult :=
  ⟨linesOf pt emg addr scene, emgPrepped pt emg, addrPrepped addr, scenePrepped scene⟩

/-- All column accesses `build_lines` performs on its inputs succeed: exactly
the condition under which none of its statements raises `KeyError`. -/
def ColsOk (emg addr scene : Table) : Prop :=
  emg.hasCol "case_id" = true ∧
  scene.hasCol "case_id" = true ∧
  emg.hasCol "related_hospital" = true ∧
  emg.hasCol "hospital_name" = true ∧
  addr.hasCol "hospital_name" = true ∧
  emg.hasCol "inquiry_end_time" = true ∧
  emg.hasCol "call_time" = true ∧
  emg.hasCol "obstruction_info" = true ∧
  (scene.renameT sceneRenameMap).hasCol "scene_lat" = true ∧
  (scene.renameT sceneRenameMap).hasCol "scene_lon" = true ∧
  (addr.renameT addrRenameMap).hasCol "hosp_lat" = true ∧
  (addr.renameT addrRenameMap).hasCol "hosp_lon" = true

instance (emg addr scene : Table) : Decidable (ColsOk emg addr scene) := by
  unfold ColsOk
  infer_instance

/-- The predicate of the step-6 filter, read off the raw call-record row: the
inquired-hospital cell is a non-empty string after cleaning. -/
def keptPred (r : Row) : Bool := decide (0 < (clean_str (getVal r "related_hospital")).length)

/-- Number of call records that survive the empty-inquired-hospital filter. -/
def keptCount (emg : Table) : Nat := (emg.rows.filter keptPred).length

/-- The cleaned hospital-name key column of the address table, the join key of
the two hospital-coordinate merges. -/
def addrKeys (addr : Table) : List String :=
  addr.rows.map (fun r => clean_str (getVal r "hospital_name"))

/-- The list of cell values of one column, for stating which columns a step
leaves unchanged. -/
def colVals (t : Table) (c : ColName) : List Cell := t.rows.map (fun r => getVal r c)

/-- The columns `build_lines` writes into its `emg` argument in place. -/
def emgAssignedCols : List ColName :=
  ["case_id", "related_hospital", "hospital_name", "inquiry_end_time", "call_time",
   "call_hour", "time_band", "main_condition"]

/-- The simpler acceptance classifier stated by the spec: missing gives
unknown, trimmed `"収容可"` gives accepted, everything else gives rejected,
with no rejection-phrase list.  Stated from the spec's words, for comparison
with `classify_available`. -/
def classify_available_spec (info : Cell) : Option Bool :=
  match info with
  | .null => none
  | c => if pyStrip (pyStr c) == "収容可" then some true else some false

/-- The call-record columns required by name in the external interface. -/
def stdEmgCols : List ColName :=
  ["case_id", "related_hospital", "hospital_name", "call_time", "inquiry_end_time",
   "obstruction_info", "incident_condition_heatstroke", "incident_condition_flu",
   "incident_condition_snow", "incident_condition_covid19_suspect"]

/-- The four condition-indicator columns. -/
def indicatorCols : List ColName :=
  ["incident_condition_heatstroke", "incident_condition_flu",
   "incident_condition_snow", "incident_condition_covid19_suspect"]

/-- The hospital-address table columns required by name. -/
def stdAddrCols : List ColName := ["hospital_name", "fX", "fY"]

/-- The scene-location table columns required by name. -/
def stdSceneCols : List ColName := ["case_id", "fX", "fY"]

/-- The call-record columns whose absence actually raises in `build_lines`:
the directly indexed ones, i.e. the required list minus the four indicator
columns (those are read with `row.get`). -/
def emgFatalCols : List ColName :=
  ["case_id", "related_hospital", "hospital_name", "call_time", "inquiry_end_time",
   "obstruction_info"]

/-- The row-level effect of the in-place cleaning and derivation steps on one
call record, i.e. what `emgPrepped` does to each row. -/
def emgRowFn (pt : ParseFn) (r : Row) : Row :=
  let r1 := setVal r "case_id" (stripCell (getVal r "case_id"))
  let r2 := setVal r1 "related_hospital" (cleanCell (getVal r1 "related_hospital"))
  let r3 := setVal r2 "hospital_name" (cleanCell (getVal r2 "hospital_name"))
  let r4 := setVal r3 "inquiry_end_time" (toDatetime pt (getVal r3 "inquiry_end_time"))
  let r5 := setVal r4 "call_time" (toDatetime pt (getVal r4 "call_time"))
  let r6 := setVal r5 "call_hour" (dtHour (getVal r5 "call_time"))
  let r7 := setVal r6 "time_band" (cutBand (getVal r6 "call_hour"))
  setVal r7 "main_condition" (.str (detect_condition r7))

/-- The row-level effect of `addr2` construction followed by the `rel_addr`
renaming on one address row. -/
def relAddrRowFn (r : Row) : Row :=
  renameRow relRenameMap (projectRow
    (renameRow addrRenameMap (setVal r "hospital_name" (cleanCell (getVal r "hospital_name"))))
    ["hospital_name", "hosp_lat", "hosp_lon"])

/-- The row-level effect of `addr2` construction followed by the `final_addr`
renaming on one address row. -/
def finalAddrRowFn (r : Row) : Row :=
  renameRow finalRenameMap (projectRow
    (renameRow addrRenameMap (setVal r "hospital_name" (cleanCell (getVal r "hospital_name"))))
    ["hospital_name", "hosp_lat", "hosp_lon"])

/-! Concrete inputs used to evaluate the pipeline.  `ptW` parses the two
timestamps of the sample rows; everything else fails to parse. -/

/-- A timestamp parser with two known instants, 05:30 and 06:00. -/
def ptW : ParseFn := fun s =>
  if s == "2024-01-15 05:30" then some ⟨10, 5, 30⟩
  else if s == "2024-01-15 06:00" then some ⟨10, 6, 0⟩
  else none

/-- A parser that accepts nothing. -/
def ptNone : ParseFn := fun _ => none

/-- A sample call-record table: one complete record (with a full-width space
in the inquired-hospital name) and one record with an empty inquired
hospital. -/
def emgW : Table :=
  ⟨stdEmgCols,
   [[("case_id", .str " A1 "), ("related_hospital", .str "City　Hospital"),
     ("hospital_name", .str "City Hospital"), ("call_time", .str "2024-01-15 05:30"),
     ("inquiry_end_time", .str "2024-01-15 06:00"), ("obstruction_info", .str "収容可"),
     ("incident_condition_heatstroke", .null), ("incident_condition_flu", .str "1"),
     ("incident_condition_snow", .null), ("incident_condition_covid19_suspect", .null)],
    [("case_id", .str "A2"), ("related_hospital", .str ""),
     ("hospital_name", .str "Other"), ("call_time", .null),
     ("inquiry_end_time", .null), ("obstruction_info", .str "満床"),
     ("incident_condition_heatstroke", .null), ("incident_condition_flu", .null),
     ("incident_condition_snow", .null), ("incident_condition_covid19_suspect", .null)]]⟩

/-- A sample hospital-address table with one hospital. -/
def addrW : Table :=
  ⟨stdAddrCols,
   [[("hospital_name", .str "CityHospital"), ("fX", .str "139.1"), ("fY", .str "35.1")]]⟩

/-- A sample scene table with a duplicated case id (distinct coordinates). -/
def sceneW : Table :=
  ⟨stdSceneCols,
   [[("case_id", .str "A1"), ("fX", .str "139.0"), ("fY", .str "35.0")],
    [("case_id", .str "A1"), ("fX", .str "139.9"), ("fY", .str "35.9")]]⟩

/-- A sample call table whose only record has a missing inquired hospital. -/
def emgN : Table :=
  ⟨stdEmgCols,
   [[("case_id", .str "B1"), ("related_hospital", .null),
     ("hospital_name", .str "X"), ("call_time", .null),
     ("inquiry_end_time", .null), ("obstruction_info", .null),
     ("incident_condition_heatstroke", .null), ("incident_condition_flu", .null),
     ("incident_condition_snow", .null), ("incident_condition_covid19_suspect", .null)]]⟩

/-- A sample call table with the heatstroke indicator column absent from the
schema entirely. -/
def emgC4 : Table :=
  ⟨["case_id", "related_hospital", "hospital_name", "call_time", "inquiry_end_time",
    "obstruction_info", "incident_condition_flu", "incident_condition_snow",
    "incident_condition_covid19_suspect"],
   [[("case_id", .str "A1"), ("related_hospital", .str "Hosp"),
     ("hospital_name", .str "Hosp"), ("call_time", .null), ("inquiry_end_time", .null),
     ("obstruction_info", .null), ("incident_condition_flu", .null),
     ("incident_condition_snow", .null), ("incident_condition_covid19_suspect", .null)]]⟩

/-! Lemmas: rows and columns. -/

theorem ok_bind {α β : Type} (x : α) (f : α → Except String β) :
    (Except.ok x >>= f) = f x := rfl

theorem error_bind {α β : Type} (e : String) (f : α → Except String β) :
    ((Except.error e : Except String α) >>= f) = .error e := rfl

theorem lookup_append_isSome {c : ColName} {l1 : Row} (h : (List.lookup c l1).isSome = true)
    (l2 : Row) : List.lookup c (l1 ++ l2) = List.lookup c l1 := by
  induction l1 with
  | nil => simp at h
  | cons p l ih =>
    cases hb : (c == p.1) <;> simp only [List.cons_append, List.lookup, hb] at h ⊢
    · exact ih h

theorem lookup_append_none {c : ColName} {l1 : Row} (h : List.lookup c l1 = none)
    (l2 : Row) : List.lookup c (l1 ++ l2) = List.lookup c l2 := by
  induction l1 with
  | nil => rfl
  | cons p l ih =>
    cases hb : (c == p.1) <;> simp only [List.cons_append, List.lookup, hb] at h ⊢
    · exact ih h
    · exact Option.noConfusion h

theorem lookup_filter_self (r : Row) (c : ColName) :
    List.lookup c (r.filter (fun p => !(p.1 == c))) = none := by
  induction r with
  | nil => rfl
  | cons p l ih =>
    by_cases hp : p.1 = c
    · simpa [List.filter, hp] using ih
    · have : (p.1 == c) = false := by simp [hp]
      have hc : (c == p.1) = false := by simp [Ne.symm hp]
      simp [List.filter, this, List.lookup, hc, ih]

theorem lookup_filter_ne (r : Row) {c c' : ColName} (h : c' ≠ c) :
    List.lookup c' (r.filter (fun p => !(p.1 == c))) = List.lookup c' r := by
  induction r with
  | nil => rfl
  | cons p l ih =>
    by_cases hp : p.1 = c
    · have hb : (p.1 == c) = true := by simp [hp]
      have hc : (c' == p.1) = false := by simp [hp ▸ h]
      simp [List.filter, hb, List.lookup, hc, ih]
    · have hb : (p.1 == c) = false := by simp [hp]
      cases hcc : (c' == p.1) <;> simp [List.filter, hb, List.lookup, hcc, ih]

theorem getVal_setVal (r : Row) (c c' : ColName) (v : Cell) :
    getVal (setVal r c v) c' = if c' = c then v else getVal r c' := by
  by_cases h : c' = c
  · subst h
    have h0 := lookup_filter_self r c'
    simp [getVal, setVal, lookup_append_none h0, List.lookup]
  · have h0 := lookup_filter_ne r h
    cases hl : List.lookup c' (r.filter (fun p => !(p.1 == c))) with
    | none =>
      have hb : (c' == c) = false := by simp [h]
      simp [getVal, setVal, lookup_append_none hl, List.lookup, hb, h, h0.symm.trans hl]
    | some v2 =>
      have : (List.lookup c' (r.filter (fun p => !(p.1 == c)))).isSome = true := by
        simp [hl]
      simp [getVal, setVal, lookup_append_isSome this, hl, h, h0.symm.trans hl]

theorem getVal_projectRow (r : Row) (cs : List ColName) (c : ColName) :
    getVal (projectRow r cs) c = if c ∈ cs then getVal r c else .null := by
  induction cs with
  | nil => simp [projectRow, getVal, List.lookup]
  | cons a cs ih =>
    by_cases h : c = a
    · subst h
      simp [projectRow, getVal, List.lookup]
    · have hb : (c == a) = false := by simp [h]
      simp only [projectRow, List.map, getVal, List.lookup, hb] at ih ⊢
      simpa [h] using ih

theorem getVal_append_isSome {r1 : Row} {c : ColName} (h : (List.lookup c r1).isSome = true)
    (r2 : Row) : getVal (r1 ++ r2) c = getVal r1 c := by
  simp [getVal, lookup_append_isSome h]

theorem cols_setCol (t : Table) (c : ColName) (f : Row → Cell) :
    (t.setCol c f).cols = if t.cols.contains c then t.cols else t.cols ++ [c] := rfl

theorem rows_setCol (t : Table) (c : ColName) (f : Row → Cell) :
    (t.setCol c f).rows = t.rows.map (fun r => setVal r c (f r)) := rfl

theorem contains_eq_decide {α : Type} [BEq α] [LawfulBEq α] [DecidableEq α]
    (l : List α) (a : α) : l.contains a = decide (a ∈ l) := by
  simp [List.contains, List.elem_eq_mem]

theorem hasCol_setCol (t : Table) (c : ColName) (f : Row → Cell) (c' : ColName) :
    (t.setCol c f).hasCol c' = (t.hasCol c' || c' == c) := by
  simp only [Table.hasCol, Table.setCol, contains_eq_decide]
  by_cases h : c ∈ t.cols <;> by_cases hc : c' = c <;>
    simp [h, hc, List.mem_append]

theorem hasCol_mapCol (t : Table) (c : ColName) (f : Cell → Cell) (c' : ColName) :
    (t.mapCol c f).hasCol c' = (t.hasCol c' || c' == c) := hasCol_setCol ..

theorem hasCol_deriveT (t : Table) (newc src : ColName) (f : Cell → Cell) (c' : ColName) :
    (t.deriveT newc src f).hasCol c' = (t.hasCol c' || c' == newc) := hasCol_setCol ..

theorem cols_setCol_of_hasCol {t : Table} {c : ColName} (h : t.hasCol c = true)
    (f : Row → Cell) : (t.setCol c f).cols = t.cols := by
  simp only [Table.hasCol] at h
  simp only [Table.setCol, h, if_pos]

theorem cols_renameT (t : Table) (m : List (ColName × ColName)) :
    (t.renameT m).cols = t.cols.map (renCol m) := rfl

theorem cols_selectT (t : Table) (cs : List ColName) : (t.selectT cs).cols = cs := rfl

theorem cols_mergeLeft (l r : Table) (key : ColName) :
    (l.mergeLeft r key).cols = l.cols ++ r.cols.filter (fun c => !(c == key)) := rfl

theorem contains_map_renCol {l : List ColName} {c : ColName}
    (h : l.contains c = true) (m : List (ColName × ColName)) (hc : renCol m c = c) :
    (l.map (renCol m)).contains c = true := by
  rw [contains_eq_decide] at h ⊢
  have hm : c ∈ l := of_decide_eq_true h
  exact decide_eq_true (hc ▸ List.mem_map_of_mem (renCol m) hm)

theorem hasCol_filterRows (t : Table) (p : Row → Bool) (c : ColName) :
    (t.filterRows p).hasCol c = t.hasCol c := rfl

theorem hasCol_mergeLeft (l r : Table) (key c' : ColName) :
    (l.mergeLeft r key).hasCol c' =
      (l.hasCol c' || (r.cols.filter (fun c => !(c == key))).contains c') := by
  by_cases hl : c' ∈ l.cols <;> by_cases hr : c' ∈ r.cols.filter (fun c => !(c == key)) <;>
    simp [Table.hasCol, cols_mergeLeft, contains_eq_decide, List.mem_append, hl, hr]

theorem contains_cols (t : Table) (c : ColName) : t.cols.contains c = t.hasCol c := rfl

theorem assign_ok {t : Table} {c : ColName} (h : t.hasCol c = true) (f : Cell → Cell) :
    t.assign c f = .ok (t.mapCol c f) := by
  simp [Table.assign, h]

theorem derive_ok {t : Table} {src : ColName} (h : t.hasCol src = true)
    (newc : ColName) (f : Cell → Cell) :
    t.derive newc src f = .ok (t.deriveT newc src f) := by
  simp [Table.derive, h]

theorem select_ok {t : Table} {cs : List ColName}
    (h : (cs.all (fun c => t.cols.contains c)) = true) :
    t.select cs = .ok (t.selectT cs) := by
  simp only [Table.select, h, if_pos]

theorem select_ok2 {t : Table} {cs : List ColName}
    (h : (cs.all (fun c => t.hasCol c)) = true) :
    t.select cs = .ok (t.selectT cs) := by
  simp only [Table.hasCol] at h
  simp only [Table.select, h, if_pos]

theorem cols_dropna (t : Table) (cs : List ColName) : (t.dropna cs).cols = t.cols := rfl

theorem cols_dropDuplicates (t : Table) (key : ColName) :
    (t.dropDuplicates key).cols = t.cols := rfl

/-! The bridge: when every required column is present, `build_lines` succeeds
and returns exactly the total composition `build_lines_core`. -/

theorem build_lines_eq_core (pt : ParseFn) (emg addr scene : Table)
    (h : ColsOk emg addr scene) :
    build_lines pt emg addr scene = .ok (build_lines_core pt emg addr scene) := by
  obtain ⟨h1, h2, h3, h4, h5, h6, h7, h8, h9, h10, h11, h12⟩ := h
  have H3 : (emg.mapCol "case_id" stripCell).hasCol "related_hospital" = true := by
    simp [hasCol_mapCol, h3]
  have H4 : ((emg.mapCol "case_id" stripCell).mapCol "related_hospital" cleanCell).hasCol
      "hospital_name" = true := by
    simp [hasCol_mapCol, h4]
  have H6 : (((emg.mapCol "case_id" stripCell).mapCol "related_hospital" cleanCell).mapCol
      "hospital_name" cleanCell).hasCol "inquiry_end_time" = true := by
    simp [hasCol_mapCol, h6]
  have H7 : ((((emg.mapCol "case_id" stripCell).mapCol "related_hospital" cleanCell).mapCol
      "hospital_name" cleanCell).mapCol "inquiry_end_time" (toDatetime pt)).hasCol
      "call_time" = true := by
    simp [hasCol_mapCol, h7]
  have H8 : (((((emg.mapCol "case_id" stripCell).mapCol "related_hospital" cleanCell).mapCol
      "hospital_name" cleanCell).mapCol "inquiry_end_time" (toDatetime pt)).mapCol
      "call_time" (toDatetime pt)).hasCol "call_time" = true := by
    simp [hasCol_mapCol]
  have H9 : ((((((emg.mapCol "case_id" stripCell).mapCol "related_hospital" cleanCell).mapCol
      "hospital_name" cleanCell).mapCol "inquiry_end_time" (toDatetime pt)).mapCol
      "call_time" (toDatetime pt)).deriveT "call_hour" "call_time" dtHour).hasCol
      "call_hour" = true := by
    simp [hasCol_deriveT]
  have hsc : ((scene.mapCol "case_id" stripCell).renameT sceneRenameMap).cols
      = scene.cols.map (renCol sceneRenameMap) := by
    rw [cols_renameT, Table.mapCol, cols_setCol_of_hasCol h2]
  have c1 : (scene.cols.map (renCol sceneRenameMap)).contains "case_id" = true :=
    contains_map_renCol h2 _ rfl
  have c2 : (scene.cols.map (renCol sceneRenameMap)).contains "scene_lat" = true := h9
  have c3 : (scene.cols.map (renCol sceneRenameMap)).contains "scene_lon" = true := h10
  have H10 : (["case_id", "scene_lat", "scene_lon"].all
      (fun c => ((scene.mapCol "case_id" stripCell).renameT sceneRenameMap).cols.contains c))
      = true := by
    simp only [List.all_cons, List.all_nil, hsc, c1, c2, c3, Bool.and_self, Bool.and_true]
  have hac : ((addr.mapCol "hospital_name" cleanCell).renameT addrRenameMap).cols
      = addr.cols.map (renCol addrRenameMap) := by
    rw [cols_renameT, Table.mapCol, cols_setCol_of_hasCol h5]
  have d1 : (addr.cols.map (renCol addrRenameMap)).contains "hospital_name" = true :=
    contains_map_renCol h5 _ rfl
  have d2 : (addr.cols.map (renCol addrRenameMap)).contains "hosp_lat" = true := h11
  have d3 : (addr.cols.map (renCol addrRenameMap)).contains "hosp_lon" = true := h12
  have H11 : (["hospital_name", "hosp_lat", "hosp_lon"].all
      (fun c => ((addr.mapCol "hospital_name" cleanCell).renameT addrRenameMap).cols.contains c))
      = true := by
    simp only [List.all_cons, List.all_nil, hac, d1, d2, d3, Bool.and_self, Bool.and_true]
  simp only [build_lines, assign_ok h1, ok_bind, assign_ok h2, ok_bind, assign_ok H3,
    ok_bind, assign_ok H4, ok_bind, assign_ok h5, ok_bind, assign_ok H6, ok_bind,
    assign_ok H7, ok_bind, derive_ok H8, ok_bind, derive_ok H9, ok_bind,
    select_ok H10, ok_bind, select_ok H11, ok_bind]
  rw [derive_ok ?hIA, ok_bind, select_ok2 ?hSel, ok_bind]
  · rfl
  case hIA =>
    simp [hasCol_mergeLeft, hasCol_filterRows, hasCol_setCol, hasCol_deriveT, hasCol_mapCol,
      cols_renameT, cols_selectT, cols_dropna, cols_dropDuplicates, renCol, List.lookup,
      relRenameMap, finalRenameMap, sceneRenameMap, contains_eq_decide, h8]
  case hSel =>
    simp [outputCols, List.all_cons, List.all_nil, hasCol_mergeLeft, hasCol_filterRows,
      hasCol_setCol, hasCol_deriveT, hasCol_mapCol, cols_renameT, cols_selectT, cols_dropna,
      cols_dropDuplicates, renCol, List.lookup, relRenameMap, finalRenameMap, sceneRenameMap,
      contains_eq_decide, h1, h3, h4, h6, h8]

/-! Lemmas: join-key matching and merge row counts. -/

theorem keyMatch_eq {v w : Cell} (h : keyMatch v w = true) : w = v := by
  cases v <;> cases w <;> simp_all [keyMatch]

theorem length_filter_keyMatch_le_one (v : Cell) (key : ColName) (rows : List Row)
    (h : (rows.map (fun rr => getVal rr key)).Nodup) :
    (rows.filter (fun rr => keyMatch v (getVal rr key))).length ≤ 1 := by
  induction rows with
  | nil => simp
  | cons a rows ih =>
    simp only [List.map_cons, List.nodup_cons] at h
    by_cases ha : keyMatch v (getVal a key) = true
    · have hav : getVal a key = v := keyMatch_eq ha
      have hnil : rows.filter (fun rr => keyMatch v (getVal rr key)) = [] := by
        refine List.filter_eq_nil_iff.mpr (fun x hx hkm => ?_)
        have : getVal x key = v := keyMatch_eq hkm
        exact h.1 (List.mem_map.mpr ⟨x, hx, this.trans hav.symm⟩)
      simp [List.filter_cons, ha, hnil]
    · simp only [List.filter_cons, eq_false_of_ne_true ha, if_neg]
      simpa using ih h.2

theorem rows_mergeLeft (l r : Table) (key : ColName) :
    (l.mergeLeft r key).rows = (l.rows.map (fun lr =>
      match r.rows.filter (fun rr => keyMatch (getVal lr key) (getVal rr key)) with
      | [] => [lr ++ (r.cols.filter (fun c => !(c == key))).map (fun c => (c, Cell.null))]
      | m :: ms => (m :: ms).map (fun rr =>
          lr ++ projectRow rr (r.cols.filter (fun c => !(c == key)))))).flatten := rfl

theorem length_flatten_one {α : Type} {f : Row → List α} {rows : List Row}
    (h : ∀ x ∈ rows, (f x).length = 1) :
    ((rows.map f).flatten).length = rows.length := by
  induction rows with
  | nil => rfl
  | cons a rows ih =>
    simp only [List.map_cons, List.flatten_cons, List.length_append,
      h a (List.mem_cons_self a rows), ih (fun x hx => h x (List.mem_cons_of_mem a hx)),
      List.length_cons]
    omega

theorem length_rows_mergeLeft (l r : Table) (key : ColName)
    (h : (r.rows.map (fun rr => getVal rr key)).Nodup) :
    (l.mergeLeft r key).rows.length = l.rows.length := by
  rw [rows_mergeLeft]
  refine length_flatten_one (fun lr _ => ?_)
  cases hm : r.rows.filter (fun rr => keyMatch (getVal lr key) (getVal rr key)) with
  | nil => rfl
  | cons m ms =>
    have hle := length_filter_keyMatch_le_one (getVal lr key) key r.rows h
    rw [hm] at hle
    simp only [List.length_cons] at hle
    have : ms = [] := List.eq_nil_of_length_eq_zero (by omega)
    subst this
    rfl

/-! Lemmas: deduplication by key. -/

theorem mem_dedupKey {key : ColName} {seen : List Cell} {rows : List Row} {r : Row}
    (h : r ∈ dedupKey key seen rows) : r ∈ rows := by
  induction rows generalizing seen with
  | nil => simp [dedupKey] at h
  | cons a rows ih =>
    simp only [dedupKey] at h
    split at h
    · exact List.mem_cons_of_mem a (ih h)
    · rcases List.mem_cons.mp h with h1 | h2
      · exact h1 ▸ List.mem_cons_self a rows
      · exact List.mem_cons_of_mem a (ih h2)

theorem dedupKey_nodup_aux (key : ColName) (seen : List Cell) (rows : List Row) :
    ((dedupKey key seen rows).map (fun r => getVal r key)).Nodup ∧
      ∀ r ∈ dedupKey key seen rows, getVal r key ∉ seen := by
  induction rows generalizing seen with
  | nil => simp [dedupKey]
  | cons a rows ih =>
    simp only [dedupKey]
    split
    · exact ih seen
    · rename_i hns
      obtain ⟨ihn, ihs⟩ := ih (getVal a key :: seen)
      refine ⟨?_, ?_⟩
      · simp only [List.map_cons, List.nodup_cons]
        refine ⟨fun hmem => ?_, ihn⟩
        rcases List.mem_map.mp hmem with ⟨r, hr, he⟩
        exact (ihs r hr) (he ▸ List.mem_cons_self _ _)
      · intro r hr
        rcases List.mem_cons.mp hr with h1 | h2
        · subst h1
          intro hmem
          exact hns (by rw [contains_eq_decide]; exact decide_eq_true hmem)
        · exact fun hmem => (ihs r h2) (List.mem_cons_of_mem _ hmem)

theorem dedupKey_find (key : ColName) (v : Cell) (seen : List Cell) (rows : List Row)
    (hv : v ∉ seen) :
    (dedupKey key seen rows).find? (fun r => getVal r key == v) =
      rows.find? (fun r => getVal r key == v) := by
  induction rows generalizing seen with
  | nil => rfl
  | cons a rows ih =>
    simp only [dedupKey]
    by_cases hc : seen.contains (getVal a key) = true
    · rw [if_pos hc]
      have hmem : getVal a key ∈ seen := by
        rw [contains_eq_decide] at hc
        exact of_decide_eq_true hc
      have hne : (getVal a key == v) = false := by
        refine beq_eq_false_iff_ne.mpr (fun he => ?_)
        exact hv (he ▸ hmem)
      rw [List.find?_cons_of_neg _ (by simp [hne]), ih seen hv]
    · rw [if_neg hc]
      by_cases hp : (getVal a key == v) = true
      · simp only [List.find?, hp]
      · simp only [List.find?, eq_false_of_ne_true hp]
        refine ih _ (fun hmem => ?_)
        rcases List.mem_cons.mp hmem with h1 | h2
        · exact hp (by rw [h1]; exact beq_self_eq_true _)
        · exact hv h2

/-! Lemmas: the prepared tables, row by row. -/

theorem rows_selectT (t : Table) (cs : List ColName) :
    (t.selectT cs).rows = t.rows.map (fun r => projectRow r cs) := rfl

theorem rows_renameT (t : Table) (m : List (ColName × ColName)) :
    (t.renameT m).rows = t.rows.map (renameRow m) := rfl

theorem renameRow_cons (m : List (ColName × ColName)) (k : ColName) (v : Cell) (rest : Row) :
    renameRow m ((k, v) :: rest) = (renCol m k, v) :: renameRow m rest := rfl

theorem renameRow_nil (m : List (ColName × ColName)) : renameRow m [] = [] := rfl

theorem projectRow_cons (r : Row) (c : ColName) (cs : List ColName) :
    projectRow r (c :: cs) = (c, getVal r c) :: projectRow r cs := rfl

theorem projectRow_nil (r : Row) : projectRow r [] = [] := rfl

theorem getVal_cons (k : ColName) (v : Cell) (r : Row) (c : ColName) :
    getVal ((k, v) :: r) c = if c = k then v else getVal r c := by
  simp only [getVal, List.lookup]
  by_cases h : c = k
  · have hb : (c == k) = true := by simp [h]
    simp [hb, h]
  · have hb : (c == k) = false := by simp [h]
    simp [hb, h]

theorem rows_emgPrepped (pt : ParseFn) (emg : Table) :
    (emgPrepped pt emg).rows = emg.rows.map (emgRowFn pt) := by
  simp only [emgPrepped, Table.mapCol, Table.deriveT, rows_setCol, List.map_map]
  rfl

theorem rows_emgQ (pt : ParseFn) (emg : Table) :
    (emgQ pt emg).rows = (emg.rows.map (emgRowFn pt)).filter
      (fun r => strLenPos (getVal r "related_hospital")) := by
  simp only [emgQ, Table.filterRows, rows_emgPrepped]

theorem getVal_emgRowFn_rel (pt : ParseFn) (r : Row) :
    getVal (emgRowFn pt r) "related_hospital" = cleanCell (getVal r "related_hospital") := by
  simp [emgRowFn, getVal_setVal]

theorem length_emgQ (pt : ParseFn) (emg : Table) :
    (emgQ pt emg).rows.length = keptCount emg := by
  rw [rows_emgQ, List.filter_map, List.length_map, keptCount]
  congr 1
  apply List.filter_congr
  intro r _
  simp [Function.comp, getVal_emgRowFn_rel, cleanCell, strLenPos, keptPred]

theorem rows_relAddr (addr : Table) :
    ((addr2Of addr).renameT relRenameMap).rows = addr.rows.map relAddrRowFn := by
  simp only [addr2Of, addrPrepped, Table.mapCol, rows_renameT, rows_selectT, rows_setCol,
    List.map_map]
  rfl

theorem rows_finalAddr (addr : Table) :
    ((addr2Of addr).renameT finalRenameMap).rows = addr.rows.map finalAddrRowFn := by
  simp only [addr2Of, addrPrepped, Table.mapCol, rows_renameT, rows_selectT, rows_setCol,
    List.map_map]
  rfl

theorem renCol_not_mem {m : List (ColName × ColName)} {a : ColName}
    (h : List.lookup a m = none) : renCol m a = a := by
  simp [renCol, h]

theorem getVal_renameRow_preserve {m : List (ColName × ColName)} {c : ColName}
    (hid : renCol m c = c) (hinj : ∀ a, renCol m a = c → a = c) (r : Row) :
    getVal (renameRow m r) c = getVal r c := by
  induction r with
  | nil => rfl
  | cons p l ih =>
    rcases p with ⟨k, v⟩
    rw [renameRow_cons, getVal_cons, getVal_cons]
    by_cases hp : renCol m k = c
    · have hk : k = c := hinj _ hp
      simp [hk, hid]
    · have hk : ¬ k = c := fun he => hp (he ▸ hid)
      have h1 : ¬ c = renCol m k := fun he => hp he.symm
      have h2 : ¬ c = k := fun he => hk he.symm
      simp [h1, h2, ih]

theorem hospName_clean_aux (r : Row) :
    getVal (renameRow addrRenameMap
        (setVal r "hospital_name" (cleanCell (getVal r "hospital_name"))))
      "hospital_name" = cleanCell (getVal r "hospital_name") := by
  rw [getVal_renameRow_preserve rfl ?hinj]
  · simp [getVal_setVal]
  case hinj =>
    intro a ha
    by_cases hfx : a = "fX"
    · subst hfx; simp [renCol, addrRenameMap, List.lookup] at ha
    · by_cases hfy : a = "fY"
      · subst hfy; simp [renCol, addrRenameMap, List.lookup] at ha
      · have b1 : (a == "fX") = false := by simp [hfx]
        have b2 : (a == "fY") = false := by simp [hfy]
        rwa [renCol_not_mem (by simp [addrRenameMap, List.lookup, b1, b2])] at ha

theorem getVal_relAddrRowFn_key (r : Row) :
    getVal (relAddrRowFn r) "related_hospital" = cleanCell (getVal r "hospital_name") := by
  have e1 : renCol relRenameMap "hospital_name" = "related_hospital" := rfl
  have e2 : renCol relRenameMap "hosp_lat" = "rel_lat" := rfl
  have e3 : renCol relRenameMap "hosp_lon" = "rel_lon" := rfl
  simp only [relAddrRowFn, projectRow_cons, projectRow_nil, renameRow_cons, renameRow_nil,
    e1, e2, e3, getVal_cons]
  simp [hospName_clean_aux]

theorem getVal_finalAddrRowFn_key (r : Row) :
    getVal (finalAddrRowFn r) "hospital_name" = cleanCell (getVal r "hospital_name") := by
  have e1 : renCol finalRenameMap "hospital_name" = "hospital_name" := rfl
  have e2 : renCol finalRenameMap "hosp_lat" = "final_lat" := rfl
  have e3 : renCol finalRenameMap "hosp_lon" = "final_lon" := rfl
  simp only [finalAddrRowFn, projectRow_cons, projectRow_nil, renameRow_cons, renameRow_nil,
    e1, e2, e3, getVal_cons]
  simp [hospName_clean_aux]

theorem relAddr_keys_nodup {addr : Table} (h : (addrKeys addr).Nodup) :
    (((addr2Of addr).renameT relRenameMap).rows.map
      (fun rr => getVal rr "related_hospital")).Nodup := by
  rw [rows_relAddr, List.map_map]
  have he : ((fun rr => getVal rr "related_hospital") ∘ relAddrRowFn) =
      (Cell.str ∘ (fun r => clean_str (getVal r "hospital_name"))) := by
    funext r
    simp [Function.comp, getVal_relAddrRowFn_key, cleanCell]
  rw [he, ← List.map_map]
  exact (h.map (fun a b hab => Cell.str.inj hab))

theorem finalAddr_keys_nodup {addr : Table} (h : (addrKeys addr).Nodup) :
    (((addr2Of addr).renameT finalRenameMap).rows.map
      (fun rr => getVal rr "hospital_name")).Nodup := by
  rw [rows_finalAddr, List.map_map]
  have he : ((fun rr => getVal rr "hospital_name") ∘ finalAddrRowFn) =
      (Cell.str ∘ (fun r => clean_str (getVal r "hospital_name"))) := by
    funext r
    simp [Function.comp, getVal_finalAddrRowFn_key, cleanCell]
  rw [he, ← List.map_map]
  exact (h.map (fun a b hab => Cell.str.inj hab))

theorem scene2_keys_nodup (scene : Table) :
    ((scene2Of scene).rows.map (fun rr => getVal rr "case_id")).Nodup := by
  simp only [scene2Of, Table.dropDuplicates]
  exact (dedupKey_nodup_aux "case_id" [] _).1

theorem length_linesOf {addr : Table} (pt : ParseFn) (emg scene : Table)
    (h : (addrKeys addr).Nodup) :
    (linesOf pt emg addr scene).rows.length = keptCount emg := by
  simp only [linesOf, rows_selectT, Table.deriveT, rows_setCol, List.length_map]
  rw [length_rows_mergeLeft _ _ _ (scene2_keys_nodup scene),
      length_rows_mergeLeft _ _ _ (finalAddr_keys_nodup h),
      length_rows_mergeLeft _ _ _ (relAddr_keys_nodup h),
      length_emgQ]

theorem length_flatten_ge {α : Type} {f : Row → List α} {rows : List Row}
    (h : ∀ x ∈ rows, 1 ≤ (f x).length) :
    rows.length ≤ ((rows.map f).flatten).length := by
  induction rows with
  | nil => simp
  | cons a rows ih =>
    simp only [List.map_cons, List.flatten_cons, List.length_append, List.length_cons]
    have h1 := h a (List.mem_cons_self a rows)
    have h2 := ih (fun x hx => h x (List.mem_cons_of_mem a hx))
    omega

theorem length_rows_mergeLeft_ge (l r : Table) (key : ColName) :
    l.rows.length ≤ (l.mergeLeft r key).rows.length := by
  rw [rows_mergeLeft]
  refine length_flatten_ge (fun lr _ => ?_)
  cases hm : r.rows.filter (fun rr => keyMatch (getVal lr key) (getVal rr key)) with
  | nil => simp
  | cons m ms => simp

/-! Claim theorems. -/

/-- C1: for every triple of input tables on which the pipeline runs, the left
joins of `build_lines` never drop rows, and when the cleaned hospital names
of the address table contain no duplicate, the output row count equals the
number of call records surviving the empty-inquired-hospital filter. -/
theorem C1_row_count_invariant (pt : ParseFn) (emg addr scene : Table)
    (hcols : ColsOk emg addr scene) :
    (∀ res, build_lines pt emg addr scene = .ok res →
        keptCount emg ≤ res.lines.rows.length) ∧
    ((addrKeys addr).Nodup →
      (build_lines pt emg addr scene).map (fun res => res.lines.rows.length) =
        .ok (keptCount emg)) := by
  constructor
  · intro res hres
    rw [build_lines_eq_core pt emg addr scene hcols] at hres
    cases hres
    rw [build_lines_core]
    simp only [linesOf, rows_selectT, Table.deriveT, rows_setCol, List.length_map]
    calc keptCount emg = (emgQ pt emg).rows.length := (length_emgQ pt emg).symm
      _ ≤ _ := by
        refine le_trans (length_rows_mergeLeft_ge _ _ _)
          (le_trans (length_rows_mergeLeft_ge _ _ _) (length_rows_mergeLeft_ge _ _ _))
  · intro hnod
    rw [build_lines_eq_core pt emg addr scene hcols]
    simp only [Except.map, build_lines_core]
    rw [length_linesOf pt emg scene hnod]

/-- Witness for C1 at the sample tables: two call records, one dropped by the
empty-inquired-hospital filter, so the output has exactly one row. -/
theorem C1_row_count_invariant_witness :
    ColsOk emgW addrW sceneW ∧ (addrKeys addrW).Nodup ∧
      (build_lines ptW emgW addrW sceneW).map (fun res => res.lines.rows.length) =
        .ok (keptCount emgW) :=
  ⟨by decide, by decide,
   (C1_row_count_invariant ptW emgW addrW sceneW (by decide)).2 (by decide)⟩

/-- C2: the acceptance classifier is a total tri-state function: a missing
field gives unknown (`none`), a non-missing value whose stripped string form
is exactly `"収容可"` gives accepted (`some true`), and every other
non-missing value gives rejected (`some false`) — no third labelled state. -/
theorem C2_classify_available_total (c : Cell) :
    (c = .null → classify_available c = none) ∧
    (c ≠ .null → pyStrip (pyStr c) = "収容可" → classify_available c = some true) ∧
    (c ≠ .null → pyStrip (pyStr c) ≠ "収容可" → classify_available c = some false) := by
  refine ⟨fun h => by subst h; rfl, fun h he => ?_, fun h he => ?_⟩
  · cases c <;> simp_all [classify_available]
  · cases c <;> simp_all [classify_available, ite_self]

/-- Witness for C2 at concrete field values: missing, accepted after
stripping, and unrecognized text. -/
theorem C2_classify_available_total_witness :
    classify_available .null = none ∧
    classify_available (.str " 収容可 ") = some true ∧
    classify_available (.str "意味不明の文章") = some false :=
  ⟨(C2_classify_available_total .null).1 rfl,
   (C2_classify_available_total (.str " 収容可 ")).2.1 (by decide) (by decide),
   (C2_classify_available_total (.str "意味不明の文章")).2.2 (by decide) (by decide)⟩

/-- C3: `detect_condition` returns exactly one of the five fixed labels by
the fixed priority heatstroke, flu, snow, covid-suspect, other; an indicator
is on when present, non-missing and not `""`, `"非該当"` or `"0"`; the first
on indicator wins, and a record with no on indicator gets the other/none
label. -/
theorem C3_condition_priority (r : Row) :
    (∀ x : Cell, is_on x = true ↔
      (x ≠ .null ∧ pyStr x ≠ "" ∧ pyStr x ≠ "非該当" ∧ pyStr x ≠ "0")) ∧
    (detect_condition r = "熱中症" ∨ detect_condition r = "インフル" ∨
      detect_condition r = "雪" ∨ detect_condition r = "コロナ疑い" ∨
      detect_condition r = "その他/なし") ∧
    (is_on (getVal r "incident_condition_heatstroke") = true →
      detect_condition r = "熱中症") ∧
    (is_on (getVal r "incident_condition_heatstroke") = false →
      is_on (getVal r "incident_condition_flu") = true →
      detect_condition r = "インフル") ∧
    (is_on (getVal r "incident_condition_heatstroke") = false →
      is_on (getVal r "incident_condition_flu") = false →
      is_on (getVal r "incident_condition_snow") = true →
      detect_condition r = "雪") ∧
    (is_on (getVal r "incident_condition_heatstroke") = false →
      is_on (getVal r "incident_condition_flu") = false →
      is_on (getVal r "incident_condition_snow") = false →
      is_on (getVal r "incident_condition_covid19_suspect") = true →
      detect_condition r = "コロナ疑い") ∧
    (is_on (getVal r "incident_condition_heatstroke") = false →
      is_on (getVal r "incident_condition_flu") = false →
      is_on (getVal r "incident_condition_snow") = false →
      is_on (getVal r "incident_condition_covid19_suspect") = false →
      detect_condition r = "その他/なし") := by
  refine ⟨fun x => by cases x <;> simp [is_on, and_assoc], ?_, ?_, ?_, ?_, ?_, ?_⟩
  all_goals
    cases hh : is_on (getVal r "incident_condition_heatstroke") <;>
    cases hf : is_on (getVal r "incident_condition_flu") <;>
    cases hs : is_on (getVal r "incident_condition_snow") <;>
    cases hc : is_on (getVal r "incident_condition_covid19_suspect") <;>
    simp [detect_condition, hh, hf, hs, hc]

/-- Witness for C3: a record with both the heatstroke and flu indicators on
classifies as heatstroke, and a record with no indicator at all classifies as
other/none. -/
theorem C3_condition_priority_witness :
    detect_condition [("incident_condition_heatstroke", Cell.str "1"),
      ("incident_condition_flu", Cell.str "1")] = "熱中症" ∧
    detect_condition [] = "その他/なし" :=
  ⟨(C3_condition_priority _).2.2.1 (by decide),
   (C3_condition_priority []).2.2.2.2.2.2 (by decide) (by decide) (by decide) (by decide)⟩

/-- C5: every hour 0–23 lands in exactly one of the four half-open buckets,
hour 0 in `"0-6"`, hour 6 in `"6-12"` (not `"0-6"`), hour 23 in `"18-24"`,
and a call timestamp that fails to parse yields a missing time band. -/
theorem C5_time_band_buckets (pt : ParseFn) :
    (∀ t : Timestamp, dtHour (.time t) = .nat t.hour) ∧
    (∀ h : Fin 24,
      (cutBand (.nat h) = .str "0-6" ↔ (h : Nat) < 6) ∧
      (cutBand (.nat h) = .str "6-12" ↔ (6 ≤ (h : Nat) ∧ (h : Nat) < 12)) ∧
      (cutBand (.nat h) = .str "12-18" ↔ (12 ≤ (h : Nat) ∧ (h : Nat) < 18)) ∧
      (cutBand (.nat h) = .str "18-24" ↔ 18 ≤ (h : Nat))) ∧
    cutBand (.nat 0) = .str "0-6" ∧
    cutBand (.nat 6) = .str "6-12" ∧
    cutBand (.nat 23) = .str "18-24" ∧
    (∀ s : String, pt s = none → cutBand (dtHour (toDatetime pt (.str s))) = .null) ∧
    cutBand (dtHour .null) = .null := by
  refine ⟨fun t => rfl, by decide, by decide, by decide, by decide, fun s hs => ?_, rfl⟩
  simp [toDatetime, hs, dtHour, cutBand]

/-- Witness for C5: a parser failure propagates to a missing band. -/
theorem C5_time_band_buckets_witness :
    ptNone "2024-13-99" = none ∧
    cutBand (dtHour (toDatetime ptNone (.str "2024-13-99"))) = .null :=
  ⟨rfl, (C5_time_band_buckets ptNone).2.2.2.2.2.1 "2024-13-99" rfl⟩

/-- C10: the rejection-phrase list `NG_WORDS` is behaviourally dead:
`classify_available` is extensionally equal to the simpler classifier that
sends a missing field to unknown, trimmed `"収容可"` to accepted, and every
other value to rejected, with no phrase matching at all. -/
theorem C10_ng_words_dead (c : Cell) :
    classify_available c = classify_available_spec c := by
  cases c <;> simp [classify_available, classify_available_spec, ite_self]

/-- C8: the scene-location table of step 4 has at most one row per case id;
rows with a missing coordinate are dropped before deduplication; among the
surviving rows the first occurrence of each case id is the one retained; and
a left join keyed on case id against this table never changes the row count
of the left table. -/
theorem C8_scene_table_unique (scene : Table) :
    ((scene2Of scene).rows.map (fun r => getVal r "case_id")).Nodup ∧
    (∀ r ∈ (scene2Of scene).rows,
      getVal r "scene_lat" ≠ .null ∧ getVal r "scene_lon" ≠ .null) ∧
    (∀ v : Cell,
      (scene2Of scene).rows.find? (fun r => getVal r "case_id" == v) =
        ((((scenePrepped scene).renameT sceneRenameMap).selectT
            ["case_id", "scene_lat", "scene_lon"]).dropna
            ["scene_lat", "scene_lon"]).rows.find? (fun r => getVal r "case_id" == v)) ∧
    (∀ l : Table, (l.mergeLeft (scene2Of scene) "case_id").rows.length = l.rows.length) := by
  refine ⟨scene2_keys_nodup scene, fun r hr => ?_, fun v => ?_,
    fun l => length_rows_mergeLeft _ _ _ (scene2_keys_nodup scene)⟩
  · simp only [scene2Of, Table.dropDuplicates] at hr
    have hm := mem_dedupKey hr
    simp only [Table.dropna, List.mem_filter, List.all_cons, List.all_nil,
      Bool.and_eq_true, Bool.and_true] at hm
    obtain ⟨-, hlat, hlon⟩ := hm
    constructor
    · simpa using hlat
    · simpa using hlon
  · simp only [scene2Of, Table.dropDuplicates]
    exact dedupKey_find "case_id" v [] _ (List.not_mem_nil v)

/-- Witness for C8 at the sample scene table (duplicate case id): the
retained row is the first one, and a join against the sample call table is
length-preserving. -/
theorem C8_scene_table_unique_witness :
    (getVal [("case_id", Cell.str "A1"), ("scene_lat", Cell.str "35.0"),
        ("scene_lon", Cell.str "139.0")] "scene_lat" ≠ .null ∧
      getVal [("case_id", Cell.str "A1"), ("scene_lat", Cell.str "35.0"),
        ("scene_lon", Cell.str "139.0")] "scene_lon" ≠ .null) ∧
    (emgW.mergeLeft (scene2Of sceneW) "case_id").rows.length = emgW.rows.length :=
  ⟨(C8_scene_table_unique sceneW).2.1
      [("case_id", Cell.str "A1"), ("scene_lat", Cell.str "35.0"),
        ("scene_lon", Cell.str "139.0")] (by decide),
   (C8_scene_table_unique sceneW).2.2.2 emgW⟩

theorem getVal_append_ne_null {r1 : Row} {c : ColName} (h : getVal r1 c ≠ .null) (r2 : Row) :
    getVal (r1 ++ r2) c = getVal r1 c := by
  cases hl : List.lookup c r1 with
  | none => exact absurd (by simp [getVal, hl]) h
  | some v => exact getVal_append_isSome (by simp [hl]) r2

theorem mem_rows_mergeLeft {l r : Table} {key : ColName} {row : Row}
    (hrow : row ∈ (l.mergeLeft r key).rows) :
    ∃ lr ∈ l.rows, ∃ rest, row = lr ++ rest := by
  rw [rows_mergeLeft] at hrow
  rcases List.mem_flatten.mp hrow with ⟨chunk, hchunk, hmem⟩
  rcases List.mem_map.mp hchunk with ⟨lr, hlr, rfl⟩
  refine ⟨lr, hlr, ?_⟩
  rcases hm : r.rows.filter (fun rr => keyMatch (getVal lr key) (getVal rr key)) with
    - | ⟨m, ms⟩
  · rw [hm] at hmem
    simp only [List.mem_singleton] at hmem
    exact ⟨_, hmem⟩
  · rw [hm] at hmem
    rcases List.mem_map.mp hmem with ⟨rr, _, he⟩
    exact ⟨_, he.symm⟩

theorem mergeLeft_row_exists {l r : Table} {key : ColName} {lr : Row} (hlr : lr ∈ l.rows) :
    ∃ rest, (lr ++ rest) ∈ (l.mergeLeft r key).rows ∧
      (r.rows.filter (fun rr => keyMatch (getVal lr key) (getVal rr key)) = [] →
        rest = (r.cols.filter (fun c => !(c == key))).map (fun c => (c, Cell.null))) := by
  cases hm : r.rows.filter (fun rr => keyMatch (getVal lr key) (getVal rr key)) with
  | nil =>
    refine ⟨(r.cols.filter (fun c => !(c == key))).map (fun c => (c, Cell.null)),
      ?_, fun _ => rfl⟩
    rw [rows_mergeLeft]
    refine List.mem_flatten.mpr
      ⟨(match r.rows.filter (fun rr => keyMatch (getVal lr key) (getVal rr key)) with
        | [] => [lr ++ (r.cols.filter (fun c => !(c == key))).map (fun c => (c, Cell.null))]
        | m :: ms => (m :: ms).map (fun rr =>
            lr ++ projectRow rr (r.cols.filter (fun c => !(c == key))))),
       List.mem_map.mpr ⟨lr, hlr, rfl⟩, ?_⟩
    rw [hm]
    exact List.mem_singleton.mpr rfl
  | cons m ms =>
    refine ⟨projectRow m (r.cols.filter (fun c => !(c == key))), ?_, fun hnil => ?_⟩
    · rw [rows_mergeLeft]
      refine List.mem_flatten.mpr
        ⟨(match r.rows.filter (fun rr => keyMatch (getVal lr key) (getVal rr key)) with
          | [] => [lr ++ (r.cols.filter (fun c => !(c == key))).map (fun c => (c, Cell.null))]
          | m :: ms => (m :: ms).map (fun rr =>
              lr ++ projectRow rr (r.cols.filter (fun c => !(c == key))))),
         List.mem_map.mpr ⟨lr, hlr, rfl⟩, ?_⟩
      rw [hm]
      exact List.mem_map_of_mem _ (List.mem_cons_self m ms)
    · exact List.noConfusion hnil

theorem mem_rows_linesOf {pt : ParseFn} {emg addr scene : Table} {row : Row}
    (hrow : row ∈ (linesOf pt emg addr scene).rows) :
    ∃ lr ∈ (emgQ pt emg).rows, ∃ mid : Row,
      row = projectRow (setVal mid "is_available"
        (availCell (classify_available (getVal mid "obstruction_info")))) outputCols ∧
      ∃ r1 r2 r3 : Row, mid = ((lr ++ r1) ++ r2) ++ r3 := by
  simp only [linesOf, rows_selectT, Table.deriveT, rows_setCol, List.map_map,
    List.mem_map, Function.comp] at hrow
  rcases hrow with ⟨mid, hmid, rfl⟩
  rcases mem_rows_mergeLeft hmid with ⟨r2m, hr2m, r3, rfl⟩
  rcases mem_rows_mergeLeft hr2m with ⟨r1m, hr1m, r2, rfl⟩
  rcases mem_rows_mergeLeft hr1m with ⟨lr, hlr, r1, rfl⟩
  exact ⟨lr, hlr, ((lr ++ r1) ++ r2) ++ r3, rfl, r1, r2, r3, rfl⟩

/-- C6: no row of the joined output has an empty inquired hospital: for every
run of the pipeline, each output row's `related_hospital` cell is a
non-empty string. -/
theorem C6_empty_related_excluded (pt : ParseFn) (emg addr scene : Table)
    (res : BuildResult) (hcols : ColsOk emg addr scene)
    (hres : build_lines pt emg addr scene = .ok res) :
    ∀ row ∈ res.lines.rows,
      ∃ s : String, getVal row "related_hospital" = .str s ∧ s ≠ "" := by
  rw [build_lines_eq_core pt emg addr scene hcols] at hres
  cases hres
  intro row hrow
  rcases mem_rows_linesOf hrow with ⟨lr, hlr, mid, rfl, r1, r2, r3, rfl⟩
  have hq : strLenPos (getVal lr "related_hospital") = true := by
    simp only [emgQ, Table.filterRows, List.mem_filter] at hlr
    exact hlr.2
  rcases hs : getVal lr "related_hospital" with - | s | n | t | b <;> rw [hs] at hq <;>
    simp [strLenPos] at hq
  have hlen : 0 < s.length := hq
  have hnn : getVal lr "related_hospital" ≠ .null := by
    rw [hs]; simp
  have hnn1 : getVal (lr ++ r1) "related_hospital" ≠ .null := by
    rw [getVal_append_ne_null hnn]; exact hnn
  have hnn2 : getVal ((lr ++ r1) ++ r2) "related_hospital" ≠ .null := by
    rw [getVal_append_ne_null hnn1]; exact hnn1
  have hv : getVal (((lr ++ r1) ++ r2) ++ r3) "related_hospital" = .str s := by
    rw [getVal_append_ne_null hnn2, getVal_append_ne_null hnn1, getVal_append_ne_null hnn, hs]
  refine ⟨s, ?_, ?_⟩
  · rw [getVal_projectRow, if_pos (by simp [outputCols]), getVal_setVal,
      if_neg (by decide), hv]
  · intro he
    subst he
    simp at hlen

/-- Witness for C6: the single output row of the sample run has the
non-empty inquired-hospital name `"CityHospital"`. -/
theorem C6_empty_related_excluded_witness :
    ∃ s : String,
      getVal [("case_id", Cell.str "A1"), ("related_hospital", Cell.str "CityHospital"),
        ("obstruction_info", Cell.str "収容可"),
        ("inquiry_end_time", Cell.time ⟨10, 6, 0⟩),
        ("scene_lat", Cell.str "35.0"), ("scene_lon", Cell.str "139.0"),
        ("rel_lat", Cell.str "35.1"), ("rel_lon", Cell.str "139.1"),
        ("hospital_name", Cell.str "City Hospital"),
        ("final_lat", Cell.null), ("final_lon", Cell.null),
        ("is_available", Cell.bool true), ("time_band", Cell.str "0-6"),
        ("main_condition", Cell.str "インフル")] "related_hospital" = .str s ∧ s ≠ "" :=
  C6_empty_related_excluded ptW emgW addrW sceneW (build_lines_core ptW emgW addrW sceneW)
    (by decide) (build_lines_eq_core ptW emgW addrW sceneW (by decide))
    [("case_id", Cell.str "A1"), ("related_hospital", Cell.str "CityHospital"),
      ("obstruction_info", Cell.str "収容可"),
      ("inquiry_end_time", Cell.time ⟨10, 6, 0⟩),
      ("scene_lat", Cell.str "35.0"), ("scene_lon", Cell.str "139.0"),
      ("rel_lat", Cell.str "35.1"), ("rel_lon", Cell.str "139.1"),
      ("hospital_name", Cell.str "City Hospital"),
      ("final_lat", Cell.null), ("final_lon", Cell.null),
      ("is_available", Cell.bool true), ("time_band", Cell.str "0-6"),
      ("main_condition", Cell.str "インフル")] (by decide)

theorem lookup_setVal_none {r : Row} {c' c : ColName} (hne : c' ≠ c)
    (h : List.lookup c' r = none) (v : Cell) : List.lookup c' (setVal r c v) = none := by
  rw [setVal, lookup_append_none ((lookup_filter_ne r hne).trans h)]
  have hb : (c' == c) = false := by simp [hne]
  simp [List.lookup, hb]

theorem lookup_emgRowFn_none {pt : ParseFn} {r : Row} {c' : ColName}
    (hne : c' ∉ emgAssignedCols) (h : List.lookup c' r = none) :
    List.lookup c' (emgRowFn pt r) = none := by
  simp only [emgAssignedCols, List.mem_cons, not_or, List.not_mem_nil] at hne
  obtain ⟨h1, h2, h3, h4, h5, h6, h7, h8, -⟩ := hne
  simp only [emgRowFn]
  exact lookup_setVal_none h8 (lookup_setVal_none h7 (lookup_setVal_none h6
    (lookup_setVal_none h5 (lookup_setVal_none h4 (lookup_setVal_none h3
      (lookup_setVal_none h2 (lookup_setVal_none h1 h _) _) _) _) _) _) _) _

/-- C9: a call record whose inquired-hospital field is missing is coerced by
the string cast to the literal `"nan"`, passes the non-empty filter, and is
retained in the joined output; since no cleaned address name equals `"nan"`,
its inquired-hospital coordinates are missing rather than matched. -/
theorem C9_missing_related_retained (pt : ParseFn) (emg addr scene : Table) (r0 : Row)
    (hcols : ColsOk emg addr scene)
    (hr0 : r0 ∈ emg.rows) (hnul : getVal r0 "related_hospital" = .null)
    (hwf : List.lookup "rel_lat" r0 = none ∧ List.lookup "rel_lon" r0 = none)
    (hnan : ∀ s ∈ addrKeys addr, s ≠ "nan") :
    clean_str (getVal r0 "related_hospital") = "nan" ∧
    keptPred r0 = true ∧
    ∀ res, build_lines pt emg addr scene = .ok res →
      ∃ row ∈ res.lines.rows,
        getVal row "related_hospital" = .str "nan" ∧
        getVal row "rel_lat" = .null ∧ getVal row "rel_lon" = .null := by
  refine ⟨by rw [hnul]; decide, by rw [keptPred, hnul]; decide, fun res hres => ?_⟩
  rw [build_lines_eq_core pt emg addr scene hcols] at hres
  cases hres
  have hrel : getVal (emgRowFn pt r0) "related_hospital" = .str "nan" := by
    rw [getVal_emgRowFn_rel, cleanCell, hnul]
    decide
  have hlr : emgRowFn pt r0 ∈ (emgQ pt emg).rows := by
    rw [rows_emgQ]
    refine List.mem_filter.mpr ⟨List.mem_map_of_mem _ hr0, ?_⟩
    rw [hrel]
    rfl
  have hl1 : List.lookup "rel_lat" (emgRowFn pt r0) = none :=
    lookup_emgRowFn_none (by decide) hwf.1
  have hl2 : List.lookup "rel_lon" (emgRowFn pt r0) = none :=
    lookup_emgRowFn_none (by decide) hwf.2
  have hrc : ((addr2Of addr).renameT relRenameMap).cols.filter
      (fun c => !(c == "related_hospital")) = ["rel_lat", "rel_lon"] := rfl
  have hfilter : ((addr2Of addr).renameT relRenameMap).rows.filter
      (fun rr => keyMatch (getVal (emgRowFn pt r0) "related_hospital")
        (getVal rr "related_hospital")) = [] := by
    refine List.filter_eq_nil_iff.mpr (fun rr hrr hkm => ?_)
    rw [rows_relAddr] at hrr
    rcases List.mem_map.mp hrr with ⟨a, ha, rfl⟩
    rw [hrel, getVal_relAddrRowFn_key, cleanCell] at hkm
    simp only [keyMatch] at hkm
    have : clean_str (getVal a "hospital_name") = "nan" := by
      have := eq_of_beq hkm
      exact (Cell.str.inj this).symm
    exact hnan _ (List.mem_map_of_mem _ ha) this
  rcases @mergeLeft_row_exists _ ((addr2Of addr).renameT relRenameMap)
      "related_hospital" _ hlr with ⟨rest1, hmem1, hrest1⟩
  have hrest1e : rest1 = [("rel_lat", Cell.null), ("rel_lon", Cell.null)] := by
    rw [hrest1 hfilter, hrc]
    rfl
  subst hrest1e
  have hlk1 : List.lookup "rel_lat" (emgRowFn pt r0 ++
      [("rel_lat", Cell.null), ("rel_lon", Cell.null)]) = some Cell.null := by
    rw [lookup_append_none hl1]
    rfl
  have hlk2 : List.lookup "rel_lon" (emgRowFn pt r0 ++
      [("rel_lat", Cell.null), ("rel_lon", Cell.null)]) = some Cell.null := by
    rw [lookup_append_none hl2]
    rfl
  have hrel1 : getVal (emgRowFn pt r0 ++
      [("rel_lat", Cell.null), ("rel_lon", Cell.null)]) "related_hospital" = .str "nan" := by
    rw [getVal_append_ne_null (by rw [hrel]; simp), hrel]
  rcases @mergeLeft_row_exists _ ((addr2Of addr).renameT finalRenameMap)
      "hospital_name" _ hmem1 with ⟨rest2, hmem2, -⟩
  rcases @mergeLeft_row_exists _ (scene2Of scene) "case_id" _ hmem2 with
    ⟨rest3, hmem3, -⟩
  have hrel1n : getVal (emgRowFn pt r0 ++
      [("rel_lat", Cell.null), ("rel_lon", Cell.null)]) "related_hospital" ≠ .null := by
    rw [hrel1]; simp
  have g2 : getVal ((emgRowFn pt r0 ++
      [("rel_lat", Cell.null), ("rel_lon", Cell.null)]) ++ rest2) "related_hospital" =
      .str "nan" := by
    rw [getVal_append_ne_null hrel1n, hrel1]
  have g2n : getVal ((emgRowFn pt r0 ++
      [("rel_lat", Cell.null), ("rel_lon", Cell.null)]) ++ rest2) "related_hospital" ≠
      .null := by
    rw [g2]; simp
  have g3 : getVal (((emgRowFn pt r0 ++
      [("rel_lat", Cell.null), ("rel_lon", Cell.null)]) ++ rest2) ++ rest3)
      "related_hospital" = .str "nan" := by
    rw [getVal_append_ne_null g2n, g2]
  have k12 : List.lookup "rel_lat" ((emgRowFn pt r0 ++
      [("rel_lat", Cell.null), ("rel_lon", Cell.null)]) ++ rest2) = some Cell.null := by
    rw [lookup_append_isSome (by rw [hlk1]; rfl)]; exact hlk1
  have k13 : List.lookup "rel_lat" (((emgRowFn pt r0 ++
      [("rel_lat", Cell.null), ("rel_lon", Cell.null)]) ++ rest2) ++ rest3) =
      some Cell.null := by
    rw [lookup_append_isSome (by rw [k12]; rfl)]; exact k12
  have k22 : List.lookup "rel_lon" ((emgRowFn pt r0 ++
      [("rel_lat", Cell.null), ("rel_lon", Cell.null)]) ++ rest2) = some Cell.null := by
    rw [lookup_append_isSome (by rw [hlk2]; rfl)]; exact hlk2
  have k23 : List.lookup "rel_lon" (((emgRowFn pt r0 ++
      [("rel_lat", Cell.null), ("rel_lon", Cell.null)]) ++ rest2) ++ rest3) =
      some Cell.null := by
    rw [lookup_append_isSome (by rw [k22]; rfl)]; exact k22
  refine ⟨projectRow (setVal (((emgRowFn pt r0 ++
      [("rel_lat", Cell.null), ("rel_lon", Cell.null)]) ++ rest2) ++ rest3)
      "is_available" (availCell (classify_available (getVal (((emgRowFn pt r0 ++
        [("rel_lat", Cell.null), ("rel_lon", Cell.null)]) ++ rest2) ++ rest3)
        "obstruction_info")))) outputCols, ?_, ?_, ?_, ?_⟩
  · simp only [build_lines_core, linesOf, rows_selectT, Table.deriveT, rows_setCol,
      List.map_map, List.mem_map, Function.comp]
    exact ⟨_, hmem3, rfl⟩
  · rw [getVal_projectRow, if_pos (by simp [outputCols]), getVal_setVal,
      if_neg (show ¬ ("related_hospital" : ColName) = "is_available" by decide)]
    exact g3
  · rw [getVal_projectRow, if_pos (by simp [outputCols]), getVal_setVal,
      if_neg (show ¬ ("rel_lat" : ColName) = "is_available" by decide)]
    simp only [getVal]
    rw [k13]
    rfl
  · rw [getVal_projectRow, if_pos (by simp [outputCols]), getVal_setVal,
      if_neg (show ¬ ("rel_lon" : ColName) = "is_available" by decide)]
    simp only [getVal]
    rw [k23]
    rfl

/-- Witness for C9 at a one-record call table whose inquired hospital is
missing: the record survives into the output with the literal name `"nan"`
and missing inquired-hospital coordinates. -/
theorem C9_missing_related_retained_witness :
    clean_str (getVal [("case_id", Cell.str "B1"), ("related_hospital", Cell.null),
      ("hospital_name", Cell.str "X"), ("call_time", Cell.null),
      ("inquiry_end_time", Cell.null), ("obstruction_info", Cell.null),
      ("incident_condition_heatstroke", Cell.null), ("incident_condition_flu", Cell.null),
      ("incident_condition_snow", Cell.null),
      ("incident_condition_covid19_suspect", Cell.null)] "related_hospital") = "nan" ∧
    keptPred [("case_id", Cell.str "B1"), ("related_hospital", Cell.null),
      ("hospital_name", Cell.str "X"), ("call_time", Cell.null),
      ("inquiry_end_time", Cell.null), ("obstruction_info", Cell.null),
      ("incident_condition_heatstroke", Cell.null), ("incident_condition_flu", Cell.null),
      ("incident_condition_snow", Cell.null),
      ("incident_condition_covid19_suspect", Cell.null)] = true ∧
    ∃ row ∈ (build_lines_core ptNone emgN addrW sceneW).lines.rows,
      getVal row "related_hospital" = .str "nan" ∧
      getVal row "rel_lat" = .null ∧ getVal row "rel_lon" = .null :=
  by
  have h := C9_missing_related_retained ptNone emgN addrW sceneW
    [("case_id", Cell.str "B1"), ("related_hospital", Cell.null),
      ("hospital_name", Cell.str "X"), ("call_time", Cell.null),
      ("inquiry_end_time", Cell.null), ("obstruction_info", Cell.null),
      ("incident_condition_heatstroke", Cell.null), ("incident_condition_flu", Cell.null),
      ("incident_condition_snow", Cell.null),
      ("incident_condition_covid19_suspect", Cell.null)]
    (by decide) (by decide) (by decide) ⟨by decide, by decide⟩ (by decide)
  exact ⟨h.1, h.2.1, h.2.2 _ (build_lines_eq_core ptNone emgN addrW sceneW (by decide))⟩

/-- Counterexample to C7 as stated: on the sample inputs the call table is
changed by the call — its `case_id` column has been stripped in place (and
derived columns were added). -/
theorem C7_inputs_unchanged_cex :
    (build_lines ptW emgW addrW sceneW).toOption.map
      (fun res => colVals res.emgAfter "case_id") ≠
      some (colVals emgW "case_id") := by
  decide

theorem getVal_emgRowFn_other {pt : ParseFn} {r : Row} {c : ColName}
    (h : c ∉ emgAssignedCols) : getVal (emgRowFn pt r) c = getVal r c := by
  simp only [emgAssignedCols, List.mem_cons, not_or, List.not_mem_nil] at h
  obtain ⟨h1, h2, h3, h4, h5, h6, h7, h8, -⟩ := h
  simp [emgRowFn, getVal_setVal, h1, h2, h3, h4, h5, h6, h7, h8]

/-- C7 amended: `build_lines` does run to completion on its inputs, but it
mutates them in place: it strips and cleans the key and name columns of the
call table and adds the derived columns, cleans `hospital_name` in the
address table and `case_id` in the scene table; every other column of the
three inputs is unchanged, and no input rows are added or removed. -/
theorem C7_mutation_frame (pt : ParseFn) (emg addr scene : Table)
    (hcols : ColsOk emg addr scene) :
    ∃ res, build_lines pt emg addr scene = .ok res ∧
      res.emgAfter.rows.length = emg.rows.length ∧
      res.addrAfter.rows.length = addr.rows.length ∧
      res.sceneAfter.rows.length = scene.rows.length ∧
      (∀ c, c ∉ emgAssignedCols → colVals res.emgAfter c = colVals emg c) ∧
      (∀ c, c ≠ "hospital_name" → colVals res.addrAfter c = colVals addr c) ∧
      (∀ c, c ≠ "case_id" → colVals res.sceneAfter c = colVals scene c) := by
  refine ⟨build_lines_core pt emg addr scene,
    build_lines_eq_core pt emg addr scene hcols, ?_, ?_, ?_, ?_, ?_, ?_⟩
  · simp [build_lines_core, rows_emgPrepped]
  · simp [build_lines_core, addrPrepped, Table.mapCol, rows_setCol]
  · simp [build_lines_core, scenePrepped, Table.mapCol, rows_setCol]
  · intro c hc
    simp only [build_lines_core, colVals, rows_emgPrepped, List.map_map]
    refine List.map_congr_left (fun r _ => ?_)
    exact getVal_emgRowFn_other hc
  · intro c hc
    simp only [build_lines_core, colVals, addrPrepped, Table.mapCol, rows_setCol,
      List.map_map]
    refine List.map_congr_left (fun r _ => ?_)
    simp [Function.comp, getVal_setVal, hc]
  · intro c hc
    simp only [build_lines_core, colVals, scenePrepped, Table.mapCol, rows_setCol,
      List.map_map]
    refine List.map_congr_left (fun r _ => ?_)
    simp [Function.comp, getVal_setVal, hc]

/-- Witness for C7 amended at the sample tables: the untouched
`obstruction_info` and coordinate columns are unchanged in place. -/
theorem C7_mutation_frame_witness :
    ∃ res, build_lines ptW emgW addrW sceneW = .ok res ∧
      res.emgAfter.rows.length = emgW.rows.length ∧
      res.addrAfter.rows.length = addrW.rows.length ∧
      res.sceneAfter.rows.length = sceneW.rows.length ∧
      (∀ c, c ∉ emgAssignedCols → colVals res.emgAfter c = colVals emgW c) ∧
      (∀ c, c ≠ "hospital_name" → colVals res.addrAfter c = colVals addrW c) ∧
      (∀ c, c ≠ "case_id" → colVals res.sceneAfter c = colVals sceneW c) :=
  C7_mutation_frame ptW emgW addrW sceneW (by decide)

/-- Counterexample to C4 as stated: a call table missing the
`incident_condition_heatstroke` column named in the external interface does
not make `build_lines` raise — the pipeline returns a joined table. -/
theorem C4_missing_column_fatal_cex :
    emgC4.hasCol "incident_condition_heatstroke" = false ∧
    (build_lines ptNone emgC4 addrW sceneW).toOption.isSome = true := by
  exact ⟨by decide, by decide⟩

/-- C4 amended: a directly indexed required column is fatal — removing any of
the six call-table columns `case_id`, `related_hospital`, `hospital_name`,
`call_time`, `inquiry_end_time`, `obstruction_info`, or any column of the
address or scene tables, makes `build_lines` raise — but the four
incident-condition indicator columns are not: with all of them absent the
pipeline still returns a joined table. -/
theorem C4_required_columns (pt : ParseFn) (er ar sr : List Row) :
    (∀ c ∈ emgFatalCols, (build_lines pt ⟨stdEmgCols.erase c, er⟩ ⟨stdAddrCols, ar⟩
        ⟨stdSceneCols, sr⟩).toOption = none) ∧
    (∀ c ∈ stdAddrCols, (build_lines pt ⟨stdEmgCols, er⟩ ⟨stdAddrCols.erase c, ar⟩
        ⟨stdSceneCols, sr⟩).toOption = none) ∧
    (∀ c ∈ stdSceneCols, (build_lines pt ⟨stdEmgCols, er⟩ ⟨stdAddrCols, ar⟩
        ⟨stdSceneCols.erase c, sr⟩).toOption = none) ∧
    (∃ res, build_lines pt ⟨emgFatalCols, er⟩ ⟨stdAddrCols, ar⟩
        ⟨stdSceneCols, sr⟩ = .ok res) := by
  refine ⟨fun c hc => ?_, fun c hc => ?_, fun c hc => ?_,
    ⟨_, build_lines_eq_core pt ⟨emgFatalCols, er⟩ ⟨stdAddrCols, ar⟩ ⟨stdSceneCols, sr⟩
      ⟨rfl, rfl, rfl, rfl, rfl, rfl, rfl, rfl, rfl, rfl, rfl, rfl⟩⟩⟩ <;>
    simp only [List.mem_cons, List.not_mem_nil, or_false, emgFatalCols, stdAddrCols,
      stdSceneCols] at hc <;>
    rcases hc with rfl | rfl | rfl | rfl | rfl | rfl <;>
      simp [build_lines, Table.assign, Table.derive, Table.select,
        Table.hasCol, Table.setCol, Table.mapCol, Table.deriveT, Table.renameT,
        Table.selectT, Table.dropna, Table.dropDuplicates, Table.filterRows,
        stdEmgCols, stdAddrCols, stdSceneCols, sceneRenameMap, addrRenameMap,
        renCol, List.lookup, contains_eq_decide, ok_bind, error_bind, Except.toOption,
        cols_mergeLeft]

/-- Witness for C4 amended: one fatal column from each table, and the run
with no indicator columns at all succeeding. -/
theorem C4_required_columns_witness :
    (build_lines ptNone ⟨stdEmgCols.erase "obstruction_info", []⟩ ⟨stdAddrCols, []⟩
        ⟨stdSceneCols, []⟩).toOption = none ∧
    (build_lines ptNone ⟨stdEmgCols, []⟩ ⟨stdAddrCols.erase "fX", []⟩
        ⟨stdSceneCols, []⟩).toOption = none ∧
    (build_lines ptNone ⟨stdEmgCols, []⟩ ⟨stdAddrCols, []⟩
        ⟨stdSceneCols.erase "fY", []⟩).toOption = none ∧
    (∃ res, build_lines ptNone ⟨emgFatalCols, []⟩ ⟨stdAddrCols, []⟩
        ⟨stdSceneCols, []⟩ = .ok res) :=
  ⟨(C4_required_columns ptNone [] [] []).1 "obstruction_info" (by decide),
   (C4_required_columns ptNone [] [] []).2.1 "fX" (by decide),
   (C4_required_columns ptNone [] [] []).2.2.1 "fY" (by decide),
   (C4_required_columns ptNone [] [] []).2.2.2⟩
